import Mathlib

/-!
Verification development for the gcloud-node snippet consisting of the
Datastore request mixin (`lib/datastore/request.js`, provided as
`src/unnamed/part_000`) and the Compute Firewall wrapper
(`src/lib/compute/firewall.js`).

The JavaScript is shallowly embedded: callback-style asynchronous code is
modelled by pure functions that take the transport's eventual reply as an
explicit argument and return the value the callback would receive; in-place
object mutation is modelled by returning the updated value; a thrown
JavaScript `Error` is modelled with `Except String`.

Helper modules of the repository that are not part of the two provided
source files (`datastore/entity.js`, `datastore/query.js`, the `compute`
object's `operation` factory) are modelled from the specification, and each
such definition is marked `Modelled from the spec:` in its doc comment.
-/

/-- Modelled from the spec: one path segment of a Datastore key — a
"kind+id/name pair" (spec section 3, `datastore/entity.js` is not in src). -/
structure PathElem where
  kind : String
  id : Option Int
  name : Option String
deriving DecidableEq, Repr

/-- Modelled from the spec: a Datastore `Key` — "namespace (optional),
ordered path segments (kind+id/name pairs)" (spec section 3). The terminal
segment is kept as the explicit `kind`/`id`/`name` fields so that the
source's in-place assignment `key.id = id` is a plain field update;
`parentPath` holds the ancestor segments. The source's `key.namespace`
property is spelled `namespaceId` here because `namespace` is reserved in
Lean. -/
structure Key where
  namespaceId : Option String := none
  parentPath : List PathElem := []
  kind : String
  id : Option Int := none
  name : Option String := none
deriving DecidableEq, Repr

/-- Modelled from the spec: wire representation of a key (partition id plus
the full segment path), produced by `entity.keyToKeyProto`. -/
structure KeyProto where
  partitionId : Option String
  path : List PathElem
deriving DecidableEq, Repr

/-- Modelled from the spec: `entity.keyToKeyProto` — the wire form of a key
is its namespace together with its ordered path segments. -/
def keyToKeyProto (key : Key) : KeyProto :=
  { partitionId := key.namespaceId
    path := key.parentPath ++ [{ kind := key.kind, id := key.id, name := key.name }] }

/-- Modelled from the spec: `entity.keyFromKeyProto` — decode a wire key
back into a domain `Key`, the terminal path segment supplying
`kind`/`id`/`name`. -/
def keyFromKeyProto (proto : KeyProto) : Key :=
  { namespaceId := proto.partitionId
    parentPath := proto.path.dropLast
    kind := ((proto.path.getLast?).map PathElem.kind).getD ""
    id := (proto.path.getLast?).bind PathElem.id
    name := (proto.path.getLast?).bind PathElem.name }

/-- Modelled from the spec: `entity.isKeyComplete` — "a Key is 'complete'
iff its final path segment carries an id or name" (spec section 3). -/
def isKeyComplete (key : Key) : Bool :=
  key.id.isSome || key.name.isSome

/-- Modelled from the spec: a scalar Datastore value (ints, strings,
booleans, null). Datastore array properties hold scalar elements, so the
value grammar below keeps arrays one level deep. -/
inductive JsScalar where
  | int (n : Int)
  | str (s : String)
  | boolean (b : Bool)
  | null
deriving DecidableEq, Repr

/-- Modelled from the spec: a caller-supplied property value — either a
scalar or an array of scalars. -/
inductive JsVal where
  | scalar (v : JsScalar)
  | arr (elements : List JsScalar)
deriving DecidableEq, Repr

/-- Wire representation of a property value: an optional scalar payload, an
optional `arrayValue.values` list, and the optional `excludeFromIndexes`
flag that `save` may attach. -/
inductive ValueProto where
  | mk (scalar : Option JsScalar) (arrayValue : Option (List ValueProto))
      (excludeFromIndexes : Option Bool)

/-- Scalar payload of a wire value. -/
def ValueProto.scalar : ValueProto → Option JsScalar
  | .mk s _ _ => s

/-- Array payload (`arrayValue.values`) of a wire value. -/
def ValueProto.arrayValue : ValueProto → Option (List ValueProto)
  | .mk _ a _ => a

/-- Index-exclusion flag of a wire value. -/
def ValueProto.excludeFromIndexes : ValueProto → Option Bool
  | .mk _ _ x => x

/-- Replace the array payload of a wire value, keeping the other fields. -/
def ValueProto.withArrayValue : ValueProto → Option (List ValueProto) → ValueProto
  | .mk s _ x, a => .mk s a x

/-- Set the `excludeFromIndexes` flag on a wire value. This is the effect of
`propAssign('excludeFromIndexes', excluded)`, which assigns the property on
the object and returns it. -/
def ValueProto.setExclude : ValueProto → Bool → ValueProto
  | .mk s a _, b => .mk s a (some b)

/-- Modelled from the spec: `entity.encodeValue` on a scalar — wire-encode a
single scalar value, with no array payload and no exclusion flag. -/
def encodeScalar (v : JsScalar) : ValueProto :=
  .mk (some v) none none

/-- Modelled from the spec: `entity.encodeValue` — wire-encode a value; an
array becomes a value whose `arrayValue.values` holds the element-wise
encodings. -/
def encodeValue : JsVal → ValueProto
  | .scalar v => encodeScalar v
  | .arr xs => .mk none (some (xs.map encodeScalar)) none

/-- Wire representation of an entity: its key plus a name-to-value property
map (modelled as the list of name/value pairs in construction order). -/
structure EntityProto where
  key : Option KeyProto
  properties : List (String × ValueProto)

/-- Modelled from the spec: `entity.entityToEntityProto` — generic encoding
of a whole `data` object, property by property (spec section 4.3 step 4,
"otherwise the whole data object is encoded generically"). -/
def entityToEntityProto (fields : List (String × JsVal)) : EntityProto :=
  { key := none
    properties := fields.map (fun p => (p.1, encodeValue p.2)) }

/-- One entry of the explicit property-list `data` form accepted by `save`:
`{name, value, excludeFromIndexes}`. -/
structure PropEntry where
  name : String
  value : JsVal
  excludeFromIndexes : Option Bool

/-- Encoding of one explicit property-list entry inside
`DatastoreRequest.prototype.save` (src/unnamed/part_000 lines 703-721): the
value is wire-encoded; when `excludeFromIndexes` is an explicit boolean and
the encoded value carries `arrayValue.values`, the flag is assigned onto
every element (via the mutating `propAssign`), otherwise the flag is set on
the value itself. -/
def encodeProperty (data : PropEntry) : ValueProto :=
  let value := encodeValue data.value
  match data.excludeFromIndexes with
  | some excluded =>
    match value.arrayValue with
    | some values => value.withArrayValue (some (values.map (fun v => v.setExclude excluded)))
    | none => value.setExclude excluded
  | none => value

/-- The `data` payload of one entity passed to `save`: either the explicit
property-list form (a JavaScript array, detected by `is.array`) or a plain
object encoded generically. -/
inductive DataForm where
  | props (entries : List PropEntry)
  | generic (fields : List (String × JsVal))

/-- One entity object passed to `save`: a key, an optional explicit mutation
`method` string, and the data payload. -/
structure EntityObj where
  key : Key
  method : Option String := none
  data : DataForm

/-- A commit mutation: either a delete keyed by a wire key, or a write
(`insert`/`update`/`upsert`) carrying a wire entity. In the source a
mutation is an object with a single property named after the method. -/
inductive Mutation where
  | delete (key : KeyProto)
  | write (method : String) (entity : EntityProto)

/-- Request body dispatched through `request_`: the `reqOpts` of a commit
(its mutations list) or of an `allocateIds` call (its key slots). -/
inductive ReqBody where
  | commit (mutations : List Mutation)
  | allocateIds (keys : List KeyProto)

/-- The queued-callback list entries of a transaction context
(`this.requestCallbacks_`). `save` queues its `onCommit` closure, which
captures the caller's entities, the pending-id index marks and the caller's
callback; `delete` queues nothing. Dispatched requests carry either the
caller's own callback (`user`) or a `saveCommit` closure. Caller callbacks
are identified by an opaque number. -/
inductive AttachedCallback where
  | user (callback : Nat)
  | saveCommit (entities : List EntityObj) (insertIndexes : List Bool) (callback : Nat)

/-- The mutable state of a `DatastoreRequest` context (a Datastore client or
a Transaction): its project id, the optional transaction id (`this.id`), the
pending-request queue (`this.requests_`) and the queued-callback list
(`this.requestCallbacks_`). -/
structure Ctx where
  projectId : String
  id : Option String := none
  requests_ : List ReqBody := []
  requestCallbacks_ : List AttachedCallback := []

/-- The `protoOpts` of a request: service and method names. -/
structure ProtoOpts where
  service : String
  method : String

/-- A fully prepared request as it leaves
`DatastoreRequest.prototype.request_` (src/unnamed/part_000 lines 796-829):
the proto options, the body, and the properties `request_` adds — project
id, commit mode, transaction id, and the read-option transaction id for
`lookup`/`runQuery`. -/
structure FinalReq where
  service : String
  method : String
  body : ReqBody
  projectId : String
  mode : Option String
  transaction : Option String
  readOptionsTransaction : Option String

/-- Embedding of `DatastoreRequest.prototype.request_`
(src/unnamed/part_000 lines 796-829), specialized to the bodies used by the
operations below. -/
def DatastoreRequest.request_ (ctx : Ctx) (protoOpts : ProtoOpts) (body : ReqBody) : FinalReq :=
  let isTransaction := ctx.id.isSome
  let method := protoOpts.method
  { service := protoOpts.service
    method := method
    body := body
    projectId := ctx.projectId
    mode :=
      if method = "commit" then
        some (if isTransaction then "TRANSACTIONAL" else "NON_TRANSACTIONAL")
      else none
    transaction :=
      if method = "commit" then (if isTransaction then ctx.id else none)
      else if method = "rollback" then ctx.id
      else none
    readOptionsTransaction :=
      if isTransaction && (method = "lookup" || method = "runQuery") then ctx.id else none }

/-- A request handed to the transport adapter, together with the callback
that the transport will invoke on completion. -/
structure Dispatch where
  req : FinalReq
  cb : AttachedCallback

/-- Embedding of `DatastoreRequest.prototype.delete`
(src/unnamed/part_000 lines 183-205): build one commit body holding a
delete mutation per key; in a transaction context (`this.id` set) append it
to `requests_` and return without dispatching, otherwise dispatch it through
`request_` with the caller's callback attached. The returned pair is the
updated context and the list of dispatched requests. -/
def DatastoreRequest.delete (ctx : Ctx) (keys : List Key) (callback : Nat) :
    Ctx × List Dispatch :=
  let protoOpts : ProtoOpts := { service := "Datastore", method := "commit" }
  let reqOpts := ReqBody.commit (keys.map (fun key => Mutation.delete (keyToKeyProto key)))
  if ctx.id.isSome then
    ({ ctx with requests_ := ctx.requests_ ++ [reqOpts] }, [])
  else
    (ctx, [{ req := DatastoreRequest.request_ ctx protoOpts reqOpts, cb := .user callback }])

/-- The property names every plain JavaScript object inherits from
`Object.prototype` (Node's V8): each resolves to a function — or, for
`__proto__`, to `Object.prototype` itself — and all of those values are
truthy. -/
def objectPrototypeMembers : List String :=
  ["constructor", "hasOwnProperty", "isPrototypeOf", "propertyIsEnumerable",
   "toLocaleString", "toString", "valueOf", "__proto__",
   "__defineGetter__", "__defineSetter__", "__lookupGetter__", "__lookupSetter__"]

/-- Truthiness of the bracket lookup `methods[entityObject.method]`
(src/unnamed/part_000 line 692) on the object literal
`{insert: true, update: true, upsert: true}`: a JavaScript bracket lookup
traverses the prototype chain, so the result is truthy for the three own
properties and also for every name inherited from `Object.prototype`. -/
def methodsLookupTruthy (m : String) : Bool :=
  m = "insert" || m = "update" || m = "upsert" || objectPrototypeMembers.contains m

/-- The mutation-method resolution of `DatastoreRequest.prototype.save`
(src/unnamed/part_000 lines 689-697): `if (entityObject.method)` is
truthiness, so a missing or empty-string `method` keeps the default
`upsert`; a truthy `method` is adopted as-is whenever
`methods[entityObject.method]` is truthy (the three real methods, plus
names inherited from `Object.prototype` through the bracket lookup);
anything else throws. -/
def resolveSaveMethod : Option String → Except String String
  | some m =>
    if m = "" then .ok "upsert"
    else if methodsLookupTruthy m then .ok m
    else .error ("Method " ++ m ++ " not recognized.")
  | none => .ok "upsert"

/-- The per-entity body of `save`'s mutation-building loop
(src/unnamed/part_000 lines 684-730) after the method is resolved: record
whether the key is incomplete (pending id assignment), encode the data
payload, and attach the wire key. -/
def buildOneMutation (entityObject : EntityObj) : Except String (Mutation × Bool) :=
  match resolveSaveMethod entityObject.method with
  | .error e => .error e
  | .ok method =>
    let pendingId := ! isKeyComplete entityObject.key
    let entityProto : EntityProto :=
      match entityObject.data with
      | .props entries =>
        { key := none, properties := entries.map (fun d => (d.name, encodeProperty d)) }
      | .generic fields => entityToEntityProto fields
    let entityProto := { entityProto with key := some (keyToKeyProto entityObject.key) }
    .ok (Mutation.write method entityProto, pendingId)

/-- The full mutation-building pass of `save` over the entity list,
collecting the mutations and the per-index pending-id marks
(`insertIndexes`). The first unrecognized method aborts the whole call, as
the source's `throw` does. -/
def buildMutations : List EntityObj → Except String (List Mutation × List Bool)
  | [] => .ok ([], [])
  | e :: rest =>
    match buildOneMutation e with
    | .error err => .error err
    | .ok (m, pending) =>
      match buildMutations rest with
      | .error err => .error err
      | .ok (ms, ps) => .ok (m :: ms, pending :: ps)

/-- Embedding of `DatastoreRequest.prototype.save`
(src/unnamed/part_000 lines 671-768): build the mutations; in a transaction
context append the commit body to `requests_` and the `onCommit` closure to
`requestCallbacks_` without dispatching, otherwise dispatch the commit with
`onCommit` attached. Throwing while building mutations is the `.error`
case. -/
def DatastoreRequest.save (ctx : Ctx) (entities : List EntityObj) (callback : Nat) :
    Except String (Ctx × List Dispatch) :=
  match buildMutations entities with
  | .error e => .error e
  | .ok (mutations, insertIndexes) =>
    let protoOpts : ProtoOpts := { service := "Datastore", method := "commit" }
    let reqOpts := ReqBody.commit mutations
    if ctx.id.isSome then
      .ok ({ ctx with
              requests_ := ctx.requests_ ++ [reqOpts]
              requestCallbacks_ :=
                ctx.requestCallbacks_ ++ [.saveCommit entities insertIndexes callback] }, [])
    else
      .ok (ctx, [{ req := DatastoreRequest.request_ ctx protoOpts reqOpts
                   cb := .saveCommit entities insertIndexes callback }])

/-- One entry of a commit response's `mutationResults`: the generated key,
when the server assigned one. -/
structure MutationResult where
  key : Option KeyProto

/-- A commit response. -/
structure CommitResp where
  mutationResults : Option (List MutationResult)

/-- What the caller's `save` callback receives. -/
inductive SaveCbCall where
  | failure (err : Option String) (resp : Option CommitResp)
  | success (resp : CommitResp)

/-- The id write-back loop of `save`'s `onCommit`
(src/unnamed/part_000 lines 747-756): walk the mutation results positionally
against the caller's original entities; a result with no key is skipped; a
result whose index was marked pending id assignment writes the decoded id
onto the original entity's key. Entities beyond the results (or results
beyond the entities, whose indexes carry no pending mark) are untouched. -/
def applyMutationResults : List EntityObj → List Bool → List MutationResult → List EntityObj
  | entities, _, [] => entities
  | [], _, _ :: _ => []
  | e :: es, ins, r :: rs =>
    let e' :=
      match r.key with
      | none => e
      | some kp =>
        if ins.headD false then
          { e with key := { e.key with id := (keyFromKeyProto kp).id } }
        else e
    e' :: applyMutationResults es ins.tail rs

/-- Embedding of `save`'s `onCommit` (src/unnamed/part_000 lines 741-759):
on error or missing response, pass them through to the caller; on success,
write generated ids back onto the original caller-supplied entities (the
in-place `entities[index].key.id = id` is modelled by the returned updated
list) and invoke the caller with the response. -/
def saveOnCommit (entities : List EntityObj) (insertIndexes : List Bool)
    (err : Option String) (resp : Option CommitResp) : List EntityObj × SaveCbCall :=
  match err, resp with
  | some e, r => (entities, .failure (some e) r)
  | none, none => (entities, .failure none none)
  | none, some r =>
    (applyMutationResults entities insertIndexes (r.mutationResults.getD []), .success r)

/-- Embedding of `DatastoreRequest.prototype.allocateIds`
(src/unnamed/part_000 lines 123-152), request half: throw when the key is
already complete; otherwise build `n` copies of the wire key (the source's
`for` loop runs `n.toNat` times for an integer `n`) and prepare the single
`allocateIds` request. -/
def DatastoreRequest.allocateIds (ctx : Ctx) (incompleteKey : Key) (n : Int) :
    Except String FinalReq :=
  if isKeyComplete incompleteKey then
    .error "An incomplete key should be provided."
  else
    let incompleteKeys := List.replicate n.toNat (keyToKeyProto incompleteKey)
    .ok (DatastoreRequest.request_ ctx { service := "Datastore", method := "allocateIds" }
          (.allocateIds incompleteKeys))

/-- An `allocateIds` response: the generated wire keys. -/
structure AllocIdsResp where
  keys : Option (List KeyProto)

/-- What the caller's `allocateIds` callback receives. -/
inductive AllocIdsCbCall where
  | failure (err : String) (resp : AllocIdsResp)
  | success (keys : List Key) (resp : AllocIdsResp)

/-- Embedding of the response callback inside `allocateIds`
(src/unnamed/part_000 lines 142-151): pass an error through; on success
decode `resp.keys` (defaulting to the empty list) element-wise, preserving
the response order. -/
def allocateIdsOnResponse (err : Option String) (resp : AllocIdsResp) : AllocIdsCbCall :=
  match err with
  | some e => .failure e resp
  | none => .success ((resp.keys.getD []).map keyFromKeyProto) resp

/-- Modelled from the spec: a Datastore `Query` (`datastore/query.js` is not
in src) — "kind filter, property filters, sort orders, projection, limit,
offset, start/end cursor" (spec section 3), with `-1` denoting an unset
limit or offset and filters/orders/projection kept opaque. -/
structure Query where
  namespaceId : Option String := none
  kinds : List String := []
  filters : List String := []
  orders : List String := []
  selectVal : List String := []
  groupByVal : List String := []
  startVal : Option String := none
  endVal : Option String := none
  limitVal : Int := -1
  offsetVal : Int := -1
deriving DecidableEq, Repr

/-- Modelled from the spec: `Query.prototype.start` — set the start cursor. -/
def Query.start (q : Query) (cursor : String) : Query :=
  { q with startVal := some cursor }

/-- Modelled from the spec: `Query.prototype.offset` — set the offset. Spec
section 4.4 states the continuation offset "bounds at zero", and the
pagination code computes it by plain subtraction, so the bound lives in the
setter: a negative argument is clamped to zero. -/
def Query.offset (q : Query) (n : Int) : Query :=
  { q with offsetVal := max 0 n }

/-- Modelled from the spec: `Query.prototype.limit` — set the limit. -/
def Query.limit (q : Query) (n : Int) : Query :=
  { q with limitVal := n }

/-- Modelled from the spec: the wire form of a query produced by
`entity.queryToQueryProto`; the pagination loop reads back
`reqOpts.query.limit.value`, modelled by the `limit` field. -/
structure QueryProto where
  kinds : List String
  startCursor : Option String
  offset : Int
  limit : Int
deriving DecidableEq, Repr

/-- Modelled from the spec: `entity.queryToQueryProto` — project the query's
fields onto the wire form. -/
def queryToQueryProto (q : Query) : QueryProto :=
  { kinds := q.kinds
    startCursor := q.startVal
    offset := q.offsetVal
    limit := q.limitVal }

/-- One result of a query batch: the wire entity it carries. -/
structure EntityResult where
  entity : EntityProto

/-- A decoded query result: the entity's key and data, reconstructed from
the wire form. -/
structure Entity where
  key : Option Key
  data : List (String × ValueProto)

/-- Modelled from the spec: `entity.formatArray` — decode a list of wire
entity results into domain entities, in order. -/
def formatArray (results : List EntityResult) : List Entity :=
  results.map (fun r => { key := r.entity.key.map keyFromKeyProto
                          data := r.entity.properties })

/-- The `batch` object of a `runQuery` response. `endCursor` holds the text
of the cursor as `runQuery` uses it (the source's
`endCursor.toString('base64')` conversion of the raw bytes is modelled by
keeping the base64 text itself). `skippedResults` defaults to 0 on the
wire. -/
structure QueryBatch where
  entityResults : Option (List EntityResult)
  moreResults : String
  endCursor : String
  skippedResults : Int

/-- A successful `runQuery` response. -/
structure RunQueryResp where
  batch : QueryBatch

/-- One transport completion for an outstanding `runQuery` request: either
an error (with whatever response object accompanied it) or a response. -/
inductive ServerReply where
  | failure (err : String) (resp : Option RunQueryResp)
  | success (resp : RunQueryResp)

/-- The terminal behavior of a `runQuery` call: the single callback
invocation it performs (success or failure), a thrown `TypeError` (`crash`,
reading `entityResults.length` off a batch with no `entityResults`), or no
termination because the transport never completed (`noResponse`). -/
inductive QueryOutcome where
  | success (entities : List Entity) (nextQuery : Option Query) (resp : RunQueryResp)
  | failure (err : String) (resp : Option RunQueryResp)
  | crash
  | noResponse

/-- The continuation-query construction inside `runQuery`'s `onResponse`
(src/unnamed/part_000 lines 463-469), entered when the batch reports
`NOT_FINISHED` or `MORE_RESULTS_AFTER_LIMIT`: clone the original query
(`extend(true, new Query(), query)` is the identity in a pure model), set
its start cursor to the batch's end cursor, and set its offset to the
original query's offset (0 when unset, i.e. -1) minus the batch's skipped
results. -/
def buildNextQuery (query : Query) (batch : QueryBatch) : Query :=
  let endCursor := batch.endCursor
  let offset : Int := if query.offsetVal = -1 then 0 else query.offsetVal
  let nextOffset := offset - batch.skippedResults
  (Query.start query endCursor).offset nextOffset

/-- The `onResponse` loop of `DatastoreRequest.prototype.runQuery`
(src/unnamed/part_000 lines 448-491), driven by the list of transport
completions for the successive requests. `originalLimitVal` is the limit
preserved before the first request; `curLimit` is the current request's
`reqOpts.query.limit.value`; `entities` is the accumulated result list.
Each response appends its decoded entities; `NOT_FINISHED` is re-polled after
decrementing an explicit limit by the batch size (reading
`entityResults.length` off a batch with no `entityResults` throws — the
`crash` outcome); a terminal response yields the single callback invocation,
restoring the original limit onto a produced `nextQuery`. -/
def runQueryLoop (q : Query) (originalLimitVal : Int) :
    Int → List Entity → List ServerReply → QueryOutcome
  | _, _, [] => .noResponse
  | _, _, .failure e r :: _ => .failure e r
  | curLimit, entities, .success resp :: rest =>
    let entities :=
      match resp.batch.entityResults with
      | some results => entities ++ formatArray results
      | none => entities
    if resp.batch.moreResults = "NOT_FINISHED" then
      if curLimit > -1 then
        match resp.batch.entityResults with
        | none => .crash
        | some results =>
          let nextQuery := (buildNextQuery q resp.batch).limit (curLimit - results.length)
          runQueryLoop q originalLimitVal (queryToQueryProto nextQuery).limit entities rest
      else
        runQueryLoop q originalLimitVal
          (queryToQueryProto (buildNextQuery q resp.batch)).limit entities rest
    else
      let nextQuery : Option Query :=
        if resp.batch.moreResults = "MORE_RESULTS_AFTER_LIMIT" then
          some (buildNextQuery q resp.batch)
        else none
      let nextQuery :=
        match nextQuery with
        | some nq => some (if originalLimitVal > -1 then nq.limit originalLimitVal else nq)
        | none => none
      .success entities nextQuery resp

/-- Embedding of `DatastoreRequest.prototype.runQuery`
(src/unnamed/part_000 lines 426-494): preserve the original limit, build the
initial wire query, and run the response loop over the transport
completions. -/
def DatastoreRequest.runQuery (q : Query) (replies : List ServerReply) : QueryOutcome :=
  let originalLimitVal := q.limitVal
  runQueryLoop q originalLimitVal (queryToQueryProto q).limit [] replies

/-- A Compute Firewall wrapper object: its name and the `network` entry of
its local metadata (set to `"global/networks/default"` at construction,
src/lib/compute/firewall.js line 143). -/
structure Firewall where
  name : String
  metadataNetwork : String := "global/networks/default"

/-- A firewall API response, as used by `delete`/`setMetadata`: the
operation name plus the rest of the payload (kept as one opaque field so
that "the operation's metadata equals the raw response" is informative). -/
structure FirewallResp where
  name : String
  payload : String
deriving DecidableEq, Repr

/-- An Operation handle for an asynchronous Compute action: its name and the
metadata attached to it. -/
structure ComputeOperation where
  name : String
  metadata : Option FirewallResp
deriving DecidableEq, Repr

/-- Modelled from the spec: `compute.operation(name)` (the `compute` module
is not in src) — an Operation handle is "created from a response's `name`
field" (spec section 3), with no metadata until one is attached. -/
def computeOperation (name : String) : ComputeOperation :=
  { name := name, metadata := none }

/-- What a firewall `delete`/`setMetadata` caller's callback receives. -/
inductive FirewallCbCall where
  | failure (err : String) (resp : FirewallResp)
  | success (operation : ComputeOperation) (resp : FirewallResp)
deriving DecidableEq, Repr

/-- Embedding of `Firewall.prototype.delete`
(src/lib/compute/firewall.js lines 165-181), response half: on error invoke
the callback with `(error, null, response)`; on success wrap the response
into an Operation named by `resp.name`, attach the raw response as its
metadata, and invoke the callback with `(null, operation, response)`. -/
def Firewall.delete (fw : Firewall) (err : Option String) (resp : FirewallResp) :
    FirewallCbCall :=
  match err with
  | some e => .failure e resp
  | none => .success { computeOperation resp.name with metadata := some resp } resp

/-- The PATCH request issued by `Firewall.prototype.setMetadata`: method,
uri, and the merged metadata body. -/
structure FirewallPatchReq where
  method : String
  uri : String
  jsonDescription : Option String
  jsonName : Option String
  jsonNetwork : Option String

/-- A caller-supplied partial firewall metadata object. -/
structure FirewallMetadata where
  description : Option String := none
  name : Option String := none
  network : Option String := none

/-- Embedding of `Firewall.prototype.setMetadata`
(src/lib/compute/firewall.js lines 206-230): merge the caller's partial
metadata with the firewall's fixed name and network, issue a PATCH request
with that body, and handle the response exactly as `delete` does — an error
yields `(error, null, response)`, success yields an Operation named by
`resp.name` whose metadata is the raw response. -/
def Firewall.setMetadata (fw : Firewall) (metadata : FirewallMetadata)
    (err : Option String) (resp : FirewallResp) : FirewallPatchReq × FirewallCbCall :=
  let metadata := { metadata with name := some fw.name, network := some fw.metadataNetwork }
  ({ method := "PATCH"
     uri := ""
     jsonDescription := metadata.description
     jsonName := metadata.name
     jsonNetwork := metadata.network },
   match err with
   | some e => .failure e resp
   | none => .success { computeOperation resp.name with metadata := some resp } resp)

/-- Concrete fixture: an incomplete `Company` key. -/
def companyKey : Key := { kind := "Company" }

/-- Concrete fixture: the wire form of a server-generated `Company` key. -/
def generatedKeyProto : KeyProto :=
  { partitionId := none
    path := [{ kind := "Company", id := some 5669468231434240, name := none }] }

/-- Concrete fixture: an entity saved under the incomplete `Company` key. -/
def companyEntity : EntityObj :=
  { key := companyKey, method := none, data := .generic [] }

/-- Concrete fixture: a commit response assigning `generatedKeyProto` to the
first mutation. -/
def generatedCommitResp : CommitResp :=
  { mutationResults := some [{ key := some generatedKeyProto }] }

/-- Concrete fixture: an entity result with an empty entity. -/
def emptyEntityResult : EntityResult :=
  { entity := { key := none, properties := [] } }

/-- Concrete fixture: a `NOT_FINISHED` batch response carrying one entity. -/
def notFinishedResp1 : RunQueryResp :=
  { batch :=
      { entityResults := some [emptyEntityResult]
        moreResults := "NOT_FINISHED"
        endCursor := "c1"
        skippedResults := 0 } }

/-- Concrete fixture: a second `NOT_FINISHED` batch response carrying one
entity. -/
def notFinishedResp2 : RunQueryResp :=
  { batch :=
      { entityResults := some [emptyEntityResult]
        moreResults := "NOT_FINISHED"
        endCursor := "c2"
        skippedResults := 0 } }

/-- Concrete fixture: a `MORE_RESULTS_AFTER_LIMIT` terminal batch response
carrying one entity. -/
def moreAfterLimitResp : RunQueryResp :=
  { batch :=
      { entityResults := some [emptyEntityResult]
        moreResults := "MORE_RESULTS_AFTER_LIMIT"
        endCursor := "c3"
        skippedResults := 0 } }

/-- Concrete fixture: a `NOT_FINISHED` batch response with no
`entityResults` field at all. -/
def notFinishedNoResults : RunQueryResp :=
  { batch :=
      { entityResults := none
        moreResults := "NOT_FINISHED"
        endCursor := "c1"
        skippedResults := 0 } }

/-- Concrete fixture: a `Lion` query with an explicit limit of 7. -/
def lionQuery : Query := { kinds := ["Lion"], limitVal := 7 }

/-- Projecting the array payload after `withArrayValue` gives the new payload. -/
theorem arrayValue_withArrayValue (v : ValueProto) (a : Option (List ValueProto)) :
    (v.withArrayValue a).arrayValue = a := by
  cases v; rfl

/-- Projecting the exclusion flag after `setExclude` gives the new flag. -/
theorem excludeFromIndexes_setExclude (v : ValueProto) (b : Bool) :
    (v.setExclude b).excludeFromIndexes = some b := by
  cases v; rfl

/-- C1. For every `runQuery` call whose response reports `NOT_FINISHED` or
`MORE_RESULTS_AFTER_LIMIT`, the constructed `nextQuery` is a clone of the
query whose start cursor equals the end cursor of the last batch and whose
offset equals the query's offset (0 when unset) reduced by the batch's
`skippedResults` count, and this offset is bounded below at zero. -/
theorem c1_runQuery_nextQuery_construction (q : Query) (batch : QueryBatch)
    (h : batch.moreResults = "NOT_FINISHED" ∨ batch.moreResults = "MORE_RESULTS_AFTER_LIMIT") :
    buildNextQuery q batch =
      { q with startVal := some batch.endCursor
               offsetVal :=
                 max 0 ((if q.offsetVal = -1 then 0 else q.offsetVal) - batch.skippedResults) } ∧
    0 ≤ (buildNextQuery q batch).offsetVal := by
  refine ⟨rfl, ?_⟩
  exact le_max_left _ _

/-- Witness for C1 at a concrete query and batch. -/
theorem c1_runQuery_nextQuery_construction_witness :
    buildNextQuery { kinds := ["Lion"], offsetVal := 2 }
        { entityResults := none, moreResults := "MORE_RESULTS_AFTER_LIMIT",
          endCursor := "curs", skippedResults := 5 } =
      { kinds := ["Lion"], offsetVal := max 0 ((2 : Int) - 5), startVal := some "curs" } ∧
    0 ≤ (buildNextQuery { kinds := ["Lion"], offsetVal := 2 }
        { entityResults := none, moreResults := "MORE_RESULTS_AFTER_LIMIT",
          endCursor := "curs", skippedResults := 5 }).offsetVal := by
  have := c1_runQuery_nextQuery_construction { kinds := ["Lion"], offsetVal := 2 }
    { entityResults := none, moreResults := "MORE_RESULTS_AFTER_LIMIT",
      endCursor := "curs", skippedResults := 5 } (Or.inr rfl)
  simpa using this

/-- C8. For every firewall `delete` or `setMetadata` call, on a successful
response the caller's callback receives `(null, operation, response)` where
the operation's identifier equals the response's `name` field and the
operation's metadata equals the raw response; on failure the callback
receives `(error, null, response)`. -/
theorem c8_firewall_operation_wrapping (fw : Firewall) (md : FirewallMetadata)
    (resp : FirewallResp) (e : String) :
    Firewall.delete fw none resp =
      .success { name := resp.name, metadata := some resp } resp ∧
    Firewall.delete fw (some e) resp = .failure e resp ∧
    (Firewall.setMetadata fw md none resp).2 =
      .success { name := resp.name, metadata := some resp } resp ∧
    (Firewall.setMetadata fw md (some e) resp).2 = .failure e resp :=
  ⟨rfl, rfl, rfl, rfl⟩

/-- C6. For every call to `allocateIds` with a key that is already complete,
the operation fails synchronously before any request is dispatched; for
every incomplete key and count `n ≥ 0`, it issues a single `allocateIds`
request containing exactly `n` copies of the key's wire representation and,
on success, returns the response's keys decoded in request order. -/
theorem c6_allocateIds_contract (ctx : Ctx) (key : Key) (n : Int)
    (err : String) (resp : AllocIdsResp) :
    (isKeyComplete key = true →
      DatastoreRequest.allocateIds ctx key n =
        .error "An incomplete key should be provided.") ∧
    (isKeyComplete key = false → 0 ≤ n →
      ∃ req, DatastoreRequest.allocateIds ctx key n = .ok req ∧
        req.method = "allocateIds" ∧
        req.body = .allocateIds (List.replicate n.toNat (keyToKeyProto key)) ∧
        ((List.replicate n.toNat (keyToKeyProto key)).length : Int) = n) ∧
    allocateIdsOnResponse none resp =
      .success ((resp.keys.getD []).map keyFromKeyProto) resp ∧
    allocateIdsOnResponse (some err) resp = .failure err resp := by
  refine ⟨?_, ?_, rfl, rfl⟩
  · intro h
    simp [DatastoreRequest.allocateIds, h]
  · intro h hn
    refine ⟨DatastoreRequest.request_ ctx { service := "Datastore", method := "allocateIds" }
      (.allocateIds (List.replicate n.toNat (keyToKeyProto key))), ?_, rfl, rfl, ?_⟩
    · simp [DatastoreRequest.allocateIds, h]
    · simp [Int.toNat_of_nonneg hn]

/-- Witness for C6: a complete key is refused; an incomplete key with
`n = 3` requests three key slots; a two-key response decodes to two keys. -/
theorem c6_allocateIds_contract_witness :
    DatastoreRequest.allocateIds { projectId := "p" } { kind := "Company", id := some 7 } 3 =
      .error "An incomplete key should be provided." ∧
    (∃ req, DatastoreRequest.allocateIds { projectId := "p" } { kind := "Company" } 3 = .ok req ∧
      req.method = "allocateIds" ∧
      req.body = .allocateIds (List.replicate (Int.toNat 3) (keyToKeyProto { kind := "Company" })) ∧
      ((List.replicate (Int.toNat 3) (keyToKeyProto { kind := "Company" })).length : Int) = 3) := by
  constructor
  · exact (c6_allocateIds_contract { projectId := "p" } { kind := "Company", id := some 7 } 3
      "e" { keys := none }).1 rfl
  · exact (c6_allocateIds_contract { projectId := "p" } { kind := "Company" } 3
      "e" { keys := none }).2.1 rfl (by norm_num)

/-- C5. For every entity saved via the explicit property-list data form
where a property has `excludeFromIndexes` set to a boolean and its encoded
value is an array value, every element of the encoded array carries the
exclusion flag; when the encoded value is not an array, the flag is set on
the value itself. The last conjunct ties the per-property encoding to the
entity proto `save` builds for the property-list form. -/
theorem c5_excludeFromIndexes_propagation (d : PropEntry) (excluded : Bool)
    (k : Key) (entries : List PropEntry)
    (hexc : d.excludeFromIndexes = some excluded) :
    (∀ vs, (encodeValue d.value).arrayValue = some vs →
      (encodeProperty d).arrayValue = some (vs.map (fun v => v.setExclude excluded)) ∧
      ∀ v ∈ (vs.map (fun v => v.setExclude excluded)), v.excludeFromIndexes = some excluded) ∧
    ((encodeValue d.value).arrayValue = none →
      (encodeProperty d).excludeFromIndexes = some excluded) ∧
    buildOneMutation { key := k, method := none, data := .props entries } =
      .ok (.write "upsert"
        { key := some (keyToKeyProto k)
          properties := entries.map (fun p => (p.name, encodeProperty p)) },
        ! isKeyComplete k) := by
  refine ⟨?_, ?_, rfl⟩
  · intro vs hvs
    constructor
    · simp [encodeProperty, hexc, hvs, arrayValue_withArrayValue]
    · intro v hv
      rcases List.mem_map.mp hv with ⟨w, _, rfl⟩
      exact excludeFromIndexes_setExclude w excluded
  · intro hnone
    simp [encodeProperty, hexc, hnone, excludeFromIndexes_setExclude]

/-- Witness for C5 at a concrete two-element array property and a concrete
non-array property. -/
theorem c5_excludeFromIndexes_propagation_witness :
    (encodeProperty
      { name := "keywords", value := .arr [.str "donut", .str "coffee"],
        excludeFromIndexes := some true }).arrayValue =
      some ([encodeScalar (.str "donut"), encodeScalar (.str "coffee")].map
        (fun v => v.setExclude true)) ∧
    (encodeProperty
      { name := "rating", value := .scalar (.int 10),
        excludeFromIndexes := some true }).excludeFromIndexes = some true := by
  constructor
  · exact ((c5_excludeFromIndexes_propagation
      { name := "keywords", value := .arr [.str "donut", .str "coffee"],
        excludeFromIndexes := some true } true { kind := "Company" } [] rfl).1
      _ rfl).1
  · exact (c5_excludeFromIndexes_propagation
      { name := "rating", value := .scalar (.int 10), excludeFromIndexes := some true }
      true { kind := "Company" } [] rfl).2.1 rfl

/-- C3. For every `save` or `delete` call on a context that carries a
transaction id, no request is dispatched through the request adapter; the
prepared mutation payload is appended to the context's pending-request
queue, and the queue's length increases by exactly one per call. When no
transaction id is present, the mutation is sent immediately as a commit
request. -/
theorem c3_transactional_buffering (ctx : Ctx) (tid : String) (keys : List Key)
    (es : List EntityObj) (cb cb2 : Nat) (ms : List Mutation) (ins : List Bool)
    (hbuild : buildMutations es = .ok (ms, ins)) :
    (DatastoreRequest.delete { ctx with id := some tid } keys cb).2 = [] ∧
    (DatastoreRequest.delete { ctx with id := some tid } keys cb).1.requests_.length =
      ctx.requests_.length + 1 ∧
    DatastoreRequest.save { ctx with id := some tid } es cb2 =
      .ok ({ ctx with
              id := some tid
              requests_ := ctx.requests_ ++ [ReqBody.commit ms]
              requestCallbacks_ := ctx.requestCallbacks_ ++ [.saveCommit es ins cb2] },
           []) ∧
    DatastoreRequest.delete { ctx with id := none } keys cb =
      ({ ctx with id := none },
       [{ req := { service := "Datastore", method := "commit"
                   body := .commit (keys.map (fun key => Mutation.delete (keyToKeyProto key)))
                   projectId := ctx.projectId
                   mode := some "NON_TRANSACTIONAL"
                   transaction := none
                   readOptionsTransaction := none }
          cb := .user cb }]) ∧
    DatastoreRequest.save { ctx with id := none } es cb2 =
      .ok ({ ctx with id := none },
           [{ req := { service := "Datastore", method := "commit"
                       body := .commit ms
                       projectId := ctx.projectId
                       mode := some "NON_TRANSACTIONAL"
                       transaction := none
                       readOptionsTransaction := none }
              cb := .saveCommit es ins cb2 }]) := by
  refine ⟨?_, ?_, ?_, ?_, ?_⟩
  · simp [DatastoreRequest.delete]
  · simp [DatastoreRequest.delete]
  · simp [DatastoreRequest.save, hbuild]
  · simp [DatastoreRequest.delete, DatastoreRequest.request_]
  · simp [DatastoreRequest.save, hbuild, DatastoreRequest.request_]

/-- Witness for C3 at a concrete context, key and entity. -/
theorem c3_transactional_buffering_witness :
    (DatastoreRequest.delete
      { projectId := "p", id := some "txn", requests_ := [], requestCallbacks_ := [] }
      [{ kind := "Company", id := some 123 }] 0).2 = [] ∧
    (DatastoreRequest.delete
      { projectId := "p", id := some "txn", requests_ := [], requestCallbacks_ := [] }
      [{ kind := "Company", id := some 123 }] 0).1.requests_.length = 0 + 1 := by
  have h := c3_transactional_buffering
    { projectId := "p", id := none, requests_ := [], requestCallbacks_ := [] } "txn"
    [{ kind := "Company", id := some 123 }]
    [{ key := { kind := "C" }, method := none, data := .generic [] }] 0 1
    [Mutation.write "upsert"
      { key := some (keyToKeyProto { kind := "C" }), properties := [] }] [true] rfl
  exact ⟨h.1, h.2.1⟩

/-- C9. For every `delete` call on a context that carries a transaction id,
the caller-supplied callback is neither invoked nor recorded in the
queued-callback list: the queued-callback list is unchanged and nothing is
dispatched (so nothing can ever invoke the callback at this layer), and only
the mutation payload is appended to the pending-request queue — whereas a
transactional `save` queues its commit callback alongside the payload. -/
theorem c9_transactional_delete_callback_dropped (ctx : Ctx) (tid : String)
    (keys : List Key) (cb : Nat) (es : List EntityObj) (cb2 : Nat)
    (ms : List Mutation) (ins : List Bool)
    (hbuild : buildMutations es = .ok (ms, ins)) :
    (DatastoreRequest.delete { ctx with id := some tid } keys cb).1.requestCallbacks_ =
      ctx.requestCallbacks_ ∧
    (DatastoreRequest.delete { ctx with id := some tid } keys cb).2 = [] ∧
    (DatastoreRequest.delete { ctx with id := some tid } keys cb).1.requests_ =
      ctx.requests_ ++
        [ReqBody.commit (keys.map (fun key => Mutation.delete (keyToKeyProto key)))] ∧
    (DatastoreRequest.save { ctx with id := some tid } es cb2).map
        (fun r => r.1.requestCallbacks_) =
      .ok (ctx.requestCallbacks_ ++ [.saveCommit es ins cb2]) := by
  refine ⟨?_, ?_, ?_, ?_⟩
  · simp [DatastoreRequest.delete]
  · simp [DatastoreRequest.delete]
  · simp [DatastoreRequest.delete]
  · simp [DatastoreRequest.save, hbuild, Except.map]

/-- Witness for C9 at a concrete context: the delete callback list stays
empty while a save queues one commit callback. -/
theorem c9_transactional_delete_callback_dropped_witness :
    (DatastoreRequest.delete
      { projectId := "p", id := some "txn", requests_ := [], requestCallbacks_ := [] }
      [{ kind := "Company", id := some 123 }] 7).1.requestCallbacks_ = [] ∧
    (DatastoreRequest.save
      { projectId := "p", id := some "txn", requests_ := [], requestCallbacks_ := [] }
      [{ key := { kind := "C" }, method := none, data := .generic [] }] 8).map
        (fun r => r.1.requestCallbacks_) =
      .ok ([] ++ [.saveCommit
        [{ key := { kind := "C" }, method := none, data := .generic [] }] [true] 8]) := by
  have h := c9_transactional_delete_callback_dropped
    { projectId := "p", id := none, requests_ := [], requestCallbacks_ := [] } "txn"
    [{ kind := "Company", id := some 123 }] 7
    [{ key := { kind := "C" }, method := none, data := .generic [] }] 8
    [Mutation.write "upsert"
      { key := some (keyToKeyProto { kind := "C" }), properties := [] }] [true] rfl
  exact ⟨h.1, h.2.2.2⟩

/-- A successfully built mutation's pending-id mark records exactly whether
the entity's key was incomplete. -/
theorem buildOneMutation_pending (e : EntityObj) (m : Mutation) (p : Bool)
    (h : buildOneMutation e = .ok (m, p)) : p = ! isKeyComplete e.key := by
  unfold buildOneMutation at h
  rcases hr : resolveSaveMethod e.method with err | mth
  · rw [hr] at h
    exact absurd h (by simp)
  · rw [hr] at h
    simp at h
    cases p <;> simp_all

/-- The `insertIndexes` list built by `buildMutations` marks index `i`
pending exactly when the `i`-th entity's key is incomplete. -/
theorem buildMutations_insertIndexes (es : List EntityObj) (ms : List Mutation)
    (ins : List Bool) (h : buildMutations es = .ok (ms, ins))
    (i : Nat) (e : EntityObj) (he : es[i]? = some e) :
    ins[i]? = some (! isKeyComplete e.key) := by
  induction es generalizing ms ins i with
  | nil => simp at he
  | cons a rest ih =>
    unfold buildMutations at h
    rcases h1 : buildOneMutation a with err | mp
    · rw [h1] at h
      exact absurd h (by simp)
    · rw [h1] at h
      rcases h2 : buildMutations rest with err | msps
      · rw [h2] at h
        exact absurd h (by simp)
      · rw [h2] at h
        simp at h
        rcases h with ⟨hms, hins⟩
        cases i with
        | zero =>
          simp at he
          subst he
          rw [← hins]
          simp [buildOneMutation_pending a mp.1 mp.2 (by rw [h1])]
        | succ j =>
          simp at he
          rw [← hins]
          simpa using ih msps.1 msps.2 h2 j he

/-- Positional description of the id write-back walk: at an index whose
entity exists, whose mutation result carries a key, and whose pending mark
is set, the walked list holds the entity with the decoded id written onto
its key. -/
theorem applyMutationResults_getElem (es : List EntityObj) (ins : List Bool)
    (rs : List MutationResult) (i : Nat) (e : EntityObj) (r : MutationResult)
    (kp : KeyProto) (he : es[i]? = some e) (hr : rs[i]? = some r)
    (hkp : r.key = some kp) (hins : ins[i]? = some true) :
    (applyMutationResults es ins rs)[i]? =
      some { e with key := { e.key with id := (keyFromKeyProto kp).id } } := by
  induction i generalizing es ins rs with
  | zero =>
    cases es with
    | nil => simp at he
    | cons a es' =>
      cases rs with
      | nil => simp at hr
      | cons b rs' =>
        cases ins with
        | nil => simp at hins
        | cons c ins' =>
          simp at he hr hins
          subst he
          subst hr
          simp [applyMutationResults, hkp, hins]
  | succ j ih =>
    cases es with
    | nil => simp at he
    | cons a es' =>
      cases rs with
      | nil => simp at hr
      | cons b rs' =>
        cases ins with
        | nil => simp at hins
        | cons c ins' =>
          simp at he hr hins
          simpa [applyMutationResults] using ih es' ins' rs' he hr hins

/-- C4. For every entity saved with an incomplete key, after a successful
commit whose mutation result at that entity's index carries a generated key,
the original caller-supplied Key object's id field is mutated in place
(modelled by the updated entity list `onCommit` returns) to equal the id
returned by the server for that index. -/
theorem c4_generated_id_writeback (entities : List EntityObj) (ms : List Mutation)
    (ins : List Bool) (resp : CommitResp) (results : List MutationResult)
    (i : Nat) (e : EntityObj) (r : MutationResult) (kp : KeyProto)
    (hbuild : buildMutations entities = .ok (ms, ins))
    (he : entities[i]? = some e)
    (hincomplete : isKeyComplete e.key = false)
    (hresults : resp.mutationResults = some results)
    (hr : results[i]? = some r)
    (hkp : r.key = some kp) :
    (saveOnCommit entities ins none (some resp)).1[i]? =
      some { e with key := { e.key with id := (keyFromKeyProto kp).id } } ∧
    (saveOnCommit entities ins none (some resp)).1[i]?.map (fun e' => e'.key.id) =
      some (some ((keyFromKeyProto kp).id)) ∧
    (saveOnCommit entities ins none (some resp)).2 = .success resp := by
  have hins : ins[i]? = some true := by
    have := buildMutations_insertIndexes entities ms ins hbuild i e he
    rwa [hincomplete] at this
  have happ := applyMutationResults_getElem entities ins results i e r kp he hr hkp hins
  refine ⟨?_, ?_, ?_⟩
  · simpa [saveOnCommit, hresults] using happ
  · simp [saveOnCommit, hresults, happ]
  · simp [saveOnCommit]

/-- Witness for C4: a single entity saved with an incomplete `Company` key
receives the server-generated id at index 0 of the updated entity list. -/
theorem c4_generated_id_writeback_witness :
    (saveOnCommit [companyEntity] [true] none (some generatedCommitResp)).1[0]?.map
        (fun e' => e'.key.id) =
      some (some ((keyFromKeyProto generatedKeyProto).id)) := by
  exact (c4_generated_id_writeback [companyEntity]
    [Mutation.write "upsert" { key := some (keyToKeyProto companyKey), properties := [] }]
    [true] generatedCommitResp [{ key := some generatedKeyProto }] 0 companyEntity
    { key := some generatedKeyProto } generatedKeyProto
    rfl rfl rfl rfl rfl rfl).2.1

/-- Running the response loop over a block of `NOT_FINISHED` batches (each
carrying entity results) followed by a `MORE_RESULTS_AFTER_LIMIT` terminal
batch appends every batch's decoded entities to the accumulator, terminates
on the terminal response, and produces the terminal `nextQuery` with the
original limit restored when one was set — for any current limit and
accumulator. -/
theorem runQueryLoop_notFinished_block (q : Query) (ol : Int)
    (bs : List RunQueryResp) (t : RunQueryResp)
    (hbs : ∀ r ∈ bs,
      r.batch.moreResults = "NOT_FINISHED" ∧ r.batch.entityResults.isSome = true)
    (ht : t.batch.moreResults = "MORE_RESULTS_AFTER_LIMIT") :
    ∀ (cl : Int) (acc : List Entity),
      runQueryLoop q ol cl acc (bs.map .success ++ [.success t]) =
        .success
          (acc ++ (bs.map (fun r => formatArray (r.batch.entityResults.getD []))).flatten
               ++ formatArray (t.batch.entityResults.getD []))
          (some (if ol > -1 then (buildNextQuery q t.batch).limit ol
                 else buildNextQuery q t.batch))
          t := by
  induction bs with
  | nil =>
    intro cl acc
    simp only [List.map_nil, List.nil_append, List.flatten_nil, List.append_nil]
    cases hres : t.batch.entityResults with
    | none => simp [runQueryLoop, ht, hres, formatArray]
    | some res => simp [runQueryLoop, ht, hres]
  | cons b bs' ih =>
    intro cl acc
    obtain ⟨hbm, hbe⟩ := hbs b (List.mem_cons_self b bs')
    obtain ⟨res, hres⟩ := Option.isSome_iff_exists.mp hbe
    have ih' := ih (fun r hr => hbs r (List.mem_cons_of_mem b hr))
    simp only [List.map_cons, List.cons_append]
    by_cases hcl : cl > -1
    · simp [runQueryLoop, hbm, hres, hcl, ih', List.append_assoc]
    · simp [runQueryLoop, hbm, hres, hcl, ih', List.append_assoc]

/-- C2. For every `runQuery` call whose successive server responses are a
sequence of `NOT_FINISHED` batches followed by a `MORE_RESULTS_AFTER_LIMIT`
terminal batch, the callback receives exactly one accumulated entity list
equal to the concatenation of all batches' decoded entities (the loop
terminates in a single `success` outcome), and, when the original query
specified an explicit limit (limit > -1), a `nextQuery` whose limit equals
that original limit rather than the decremented remainder used during
internal continuation. -/
theorem c2_runQuery_accumulates_and_restores_limit (q : Query)
    (bs : List RunQueryResp) (t : RunQueryResp)
    (hbs : ∀ r ∈ bs,
      r.batch.moreResults = "NOT_FINISHED" ∧ r.batch.entityResults.isSome = true)
    (ht : t.batch.moreResults = "MORE_RESULTS_AFTER_LIMIT") :
    DatastoreRequest.runQuery q (bs.map .success ++ [.success t]) =
      .success
        ((bs.map (fun r => formatArray (r.batch.entityResults.getD []))).flatten
             ++ formatArray (t.batch.entityResults.getD []))
        (some (if q.limitVal > -1 then (buildNextQuery q t.batch).limit q.limitVal
               else buildNextQuery q t.batch))
        t ∧
    (q.limitVal > -1 →
      (if q.limitVal > -1 then (buildNextQuery q t.batch).limit q.limitVal
       else buildNextQuery q t.batch).limitVal = q.limitVal) := by
  constructor
  · have h := runQueryLoop_notFinished_block q q.limitVal bs t hbs ht
      (queryToQueryProto q).limit []
    simpa [DatastoreRequest.runQuery] using h
  · intro h
    rw [if_pos h]
    rfl

/-- Witness for C2: two `NOT_FINISHED` batches followed by a
`MORE_RESULTS_AFTER_LIMIT` batch accumulate all three batches' entities, and
the produced `nextQuery` carries the original limit 7. -/
theorem c2_runQuery_accumulates_and_restores_limit_witness :
    DatastoreRequest.runQuery lionQuery
      [.success notFinishedResp1, .success notFinishedResp2, .success moreAfterLimitResp] =
      .success
        (([notFinishedResp1, notFinishedResp2].map
            (fun r => formatArray (r.batch.entityResults.getD []))).flatten
          ++ formatArray (moreAfterLimitResp.batch.entityResults.getD []))
        (some (if lionQuery.limitVal > -1
               then (buildNextQuery lionQuery moreAfterLimitResp.batch).limit lionQuery.limitVal
               else buildNextQuery lionQuery moreAfterLimitResp.batch))
        moreAfterLimitResp ∧
    (if lionQuery.limitVal > -1
     then (buildNextQuery lionQuery moreAfterLimitResp.batch).limit lionQuery.limitVal
     else buildNextQuery lionQuery moreAfterLimitResp.batch).limitVal = lionQuery.limitVal := by
  have h := c2_runQuery_accumulates_and_restores_limit lionQuery
    [notFinishedResp1, notFinishedResp2] moreAfterLimitResp
    (by intro r hr
        rcases List.mem_cons.mp hr with h1 | h1
        · subst h1; exact ⟨rfl, rfl⟩
        · rcases List.mem_cons.mp h1 with h2 | h2
          · subst h2; exact ⟨rfl, rfl⟩
          · simp at h2)
    rfl
  exact ⟨h.1, h.2 (by simp [lionQuery])⟩

/-- C10. For every `runQuery` response reporting `NOT_FINISHED` while the
outstanding request carries a limit greater than -1, processing the response
reads the length of the batch's `entityResults` list; the continuation is
only well-defined when `entityResults` is present, and a `NOT_FINISHED`
response with no `entityResults` field makes `runQuery` throw (the `crash`
outcome) instead of invoking the callback. -/
theorem c10_notFinished_missing_entityResults_throws (q : Query) (ol cl : Int)
    (acc : List Entity) (resp : RunQueryResp) (rest : List ServerReply)
    (hmore : resp.batch.moreResults = "NOT_FINISHED")
    (hnone : resp.batch.entityResults = none) :
    (cl > -1 → runQueryLoop q ol cl acc (.success resp :: rest) = .crash) ∧
    (q.limitVal > -1 →
      DatastoreRequest.runQuery q (.success resp :: rest) = .crash) := by
  constructor
  · intro h
    simp [runQueryLoop, hmore, hnone, h]
  · intro h
    have hq : (queryToQueryProto q).limit > -1 := h
    simp [DatastoreRequest.runQuery, runQueryLoop, hmore, hnone, hq]

/-- Witness for C10: a limited query whose first response is `NOT_FINISHED`
with no `entityResults` crashes instead of calling back. -/
theorem c10_notFinished_missing_entityResults_throws_witness :
    DatastoreRequest.runQuery lionQuery [.success notFinishedNoResults] = .crash := by
  exact (c10_notFinished_missing_entityResults_throws lionQuery lionQuery.limitVal
    lionQuery.limitVal [] notFinishedNoResults [] rfl rfl).2 (by simp [lionQuery])
